import Mathlib

/-!
A shallow embedding of the peer-to-peer file transfer program in `src/Main.py`
(the d2download repository), together with theorems checking the system
specification against it.

Python strings are modelled as `List Char`, byte strings as `List Nat`.
The filesystem is modelled as an association list from path to entry
(regular file with its byte content, or directory); a path absent from the
list does not exist.  `open(path, 'rb')` succeeds exactly on regular files:
on a missing path it raises `FileNotFoundError` and on a directory it raises
`IsADirectoryError`, both of which are `IOError`s.
-/

namespace D2Download

abbrev Byte := Nat
abbrev Bytes := List Byte
abbrev Str := List Char

/-- `uploadsDir = "Uploads"` (Main.py line 9): the served directory. -/
def uploadsDir : Str := "Uploads".toList

/-- `downloadsDir = "Downloads"` (Main.py line 10): the downloads directory. -/
def downloadsDir : Str := "Downloads".toList

/-- `chunkSize = 32 * 1024` (Main.py line 12). -/
def chunkSize : Nat := 32 * 1024

/-- A filesystem entry: a regular file with its byte content, or a directory. -/
inductive FsEntry
  | file (content : Bytes)
  | dir
deriving DecidableEq, Repr

/-- The filesystem: an association list from path to entry. -/
abbrev Fs := List (Str × FsEntry)

def fsLookup (fs : Fs) (p : Str) : Option FsEntry :=
  (fs.find? (fun e => e.1 == p)).map (fun e => e.2)

/-- Creating/overwriting a file (`open(path, 'wb')` followed by writes). -/
def fsInsert (fs : Fs) (p : Str) (v : FsEntry) : Fs := (p, v) :: fs

/-- `os.remove(path)` (Main.py line 167). -/
def fsRemove (fs : Fs) (p : Str) : Fs := fs.filter (fun e => !(e.1 == p))

/-- `os.path.join` (POSIX): an absolute second component discards the first;
otherwise the components are joined with a single `/` separator. -/
def ospathJoin (a b : Str) : Str :=
  if b.head? = some '/' then b
  else if a = [] then b
  else if a.getLast? = some '/' then a ++ b
  else a ++ '/' :: b

/-- Modelled from the spec: `hashlib.sha256` is library code, not part of
`src/`.  The spec describes it as "a streaming digest accumulator" producing
"a fixed-size fingerprint of a file's full byte content" that is "compared
for equality to establish content identity".  The accumulator state is the
byte sequence fed so far; `update` appends a chunk. -/
structure Sha256 where
  fed : Bytes
deriving DecidableEq, Repr

/-- `hashlib.sha256()`: the fresh accumulator. -/
def Sha256.new : Sha256 := ⟨[]⟩

/-- `sha256.update(chunk)`: feed one chunk into the accumulator. -/
def Sha256.update (s : Sha256) (chunk : Bytes) : Sha256 := ⟨s.fed ++ chunk⟩

/-- `sha256.hexdigest()`: the digest is determined by the byte sequence fed so
far (collision-free idealization of SHA-256, faithful to the spec's
equality-only use of digests). -/
def Sha256.hexdigest (s : Sha256) : Bytes := s.fed

/-- The read loop `while chunk := f.read(n)`, with an explicit iteration
bound `fuel`: each iteration returns the next `n` bytes, and `read` returns
the empty byte string (stopping the loop) once the file is exhausted or when
`n = 0`.  With `0 < n` each iteration consumes at least one byte, so
`content.length` iterations always suffice. -/
def readChunksF : Nat → Nat → Bytes → List Bytes
  | 0, _, _ => []
  | fuel + 1, n, content =>
    if n = 0 ∨ content = [] then []
    else content.take n :: readChunksF fuel n (content.drop n)

/-- The read loop `while chunk := f.read(chunkSize)` (Main.py lines 24, 53):
the successive chunks of the file's content, each of size `n` except a
shorter final one. -/
def readChunks (n : Nat) (content : Bytes) : List Bytes :=
  readChunksF content.length n content

/-- `calculateFileHash` (Main.py lines 19-28): open the file, feed it into a
fresh SHA-256 accumulator in `chunkSize` chunks, and return the hex digest;
return `None` if the file cannot be opened (missing path or directory both
raise `IOError`). -/
def calculateFileHash (fs : Fs) (filePath : Str) : Option Bytes :=
  match fsLookup fs filePath with
  | some (.file content) =>
      some (((readChunks chunkSize content).foldl Sha256.update Sha256.new).hexdigest)
  | _ => none

/-- A parsed JSON value, as produced by `json.loads` / `json.load`. -/
inductive JsonVal
  | str (s : Str)
  | num (n : Int)
  | bool (b : Bool)
  | null
  | arr (elems : List JsonVal)
  | obj (fields : List (Str × JsonVal))

/-- Subscripting a parsed JSON object: `request["request"]` etc. -/
def jsonLookup (fields : List (Str × JsonVal)) (k : Str) : Option JsonVal :=
  (fields.find? (fun e => e.1 == k)).map (fun e => e.2)

/-- Whether a JSON value is an object (a Python `dict` after parsing). -/
def JsonVal.isObj : JsonVal → Bool
  | .obj _ => true
  | _ => false

/-- The observable outcome of one `handleClient` invocation: the byte-string
arguments of its `sendall` calls in order (`[]` is `sendall(b'')`), and
whether the socket was closed. -/
structure HandlerResult where
  sent : List Bytes
  closed : Bool
deriving DecidableEq, Repr

/-- `handleClient` (Main.py lines 42-60).  `data` is the result of parsing the
single `recv(1024)` payload: `none` when `json.loads` raises.  Any exception
(parse failure, subscripting a non-dict, a missing key, `os.path.join` on a
non-string, `open` raising) is caught by the bare `except` after sending
nothing further; the `finally` closes the socket in every case. -/
def handleClient (fs : Fs) (data : Option JsonVal) : HandlerResult :=
  match data with
  | some (.obj fields) =>
    match jsonLookup fields "request".toList with
    | some (.str s) =>
      if s = "download".toList then
        match jsonLookup fields "filename".toList with
        | some (.str filename) =>
          match fsLookup fs (ospathJoin uploadsDir filename) with
          | some (.file content) => ⟨readChunks chunkSize content, true⟩
          | some .dir => ⟨[], true⟩
          | none => ⟨[[]], true⟩
        | _ => ⟨[], true⟩
      else ⟨[], true⟩
    | some _ => ⟨[], true⟩
    | none => ⟨[], true⟩
  | _ => ⟨[], true⟩

/-- Whether the initial payload parsed and carried the recognized
`"request": "download"` field, i.e. the handler reached its download branch. -/
def requestRecognized : Option JsonVal → Bool
  | some (.obj fields) =>
    match jsonLookup fields "request".toList with
    | some (.str s) => s == "download".toList
    | _ => false
  | _ => false

/-- The fields of the request object the Fetch Client serializes
(Main.py line 149): `json.dumps({"request": "download", "filename": filename})`. -/
def clientRequestFields (filename : Str) : List (Str × JsonVal) :=
  [("request".toList, .str "download".toList), ("filename".toList, .str filename)]

/-- The single request message the Fetch Client sends per connection. -/
def clientRequest (filename : Str) : JsonVal := .obj (clientRequestFields filename)

/-- The receive loop (Main.py lines 155-158): `while chunk := sock.recv(chunkSize)`
appends each received chunk to the file and stops at the first empty read
(orderly end of stream).  `recvChunks` are the successive return values of
`recv`. -/
def clientReceive : List Bytes → Bytes
  | [] => []
  | c :: rest => if c = [] then [] else c ++ clientReceive rest

/-- A framing of a byte stream into the chunks a sequence of `recv(chunkSize)`
calls returns before end-of-stream: on a reliable transport the chunks are
nonempty, at most `chunkSize` long, and concatenate to the full stream. -/
def validFraming (chunks : List Bytes) (stream : Bytes) : Prop :=
  chunks.flatten = stream ∧ ∀ c ∈ chunks, c ≠ [] ∧ c.length ≤ chunkSize

/-- The terminal outcome `downloadFileUi` reports on line 6 of the screen:
success (line 164), verification failure (line 166), or the generic
`Error: {e}` of the outer `except` (line 170). -/
inductive Outcome
  | success
  | verificationFailure
  | errorReported
deriving DecidableEq, Repr

/-- Where, if anywhere, an I/O or network exception interrupts the download
attempt: at `connect`, at `sendall`, or during the receive loop after `part`
bytes were already written to the local file. -/
inductive FailPoint
  | ok
  | connectFail
  | sendFail
  | recvFail (part : Bytes)
deriving DecidableEq, Repr

/-- The download-and-verify core of `downloadFileUi` (Main.py lines 142-170),
from the `try` on: connect, send the request, receive the stream into
`Downloads/<filename>`, hash the written copy and the reference copy in
`Uploads/<filename>`, and on mismatch delete the written file.  `fs` is the
local filesystem; `recvChunks` is what the `recv` loop returns when no
exception occurs; `fp` injects an exception at one of the blocking points
(caught by the outer `except`, which only reports the error). -/
def downloadRun (fs : Fs) (filename : Str) (recvChunks : List Bytes)
    (fp : FailPoint) : Outcome × Fs :=
  match fp with
  | .connectFail => (.errorReported, fs)
  | .sendFail => (.errorReported, fs)
  | .recvFail part =>
      (.errorReported, fsInsert fs (ospathJoin downloadsDir filename) (.file part))
  | .ok =>
      let filePath := ospathJoin downloadsDir filename
      let received := clientReceive recvChunks
      let fs1 := fsInsert fs filePath (.file received)
      let downloadedFileHash := calculateFileHash fs1 filePath
      let originalFileHash := calculateFileHash fs1 (ospathJoin uploadsDir filename)
      if downloadedFileHash = originalFileHash then (.success, fs1)
      else (.verificationFailure, fsRemove fs1 filePath)

/-- The state of the address-book file as `loadAddressBook` finds it:
absent or unreadable (`IOError` on `open`), malformed (`json.JSONDecodeError`),
or holding a parsed JSON value. -/
inductive AbFileState
  | absent
  | unreadable
  | malformedJson
  | content (v : JsonVal)

/-- `loadAddressBook` (Main.py lines 79-85): return the parsed JSON file
content, or `{}` when `open` raises `IOError` or parsing raises
`JSONDecodeError`. -/
def loadAddressBook : AbFileState → JsonVal
  | .content v => v
  | _ => .obj []

/-- Splitting a path string on `/` into components. -/
def splitSlash : Str → List Str
  | [] => [[]]
  | c :: rest =>
    if c = '/' then [] :: splitSlash rest
    else
      match splitSlash rest with
      | [] => [[c]]
      | h :: t => (c :: h) :: t

/-- Modelled from the spec: POSIX resolution of a relative path against the
working directory (the OS, not repository code).  Empty and `.` components
are skipped, `..` pops the last resolved component; a `..` from the working
directory itself (`none`) leaves every base directory under it. -/
def resolveComps (acc : List Str) : List Str → Option (List Str)
  | [] => some acc
  | c :: rest =>
    if c = [] ∨ c = ".".toList then resolveComps acc rest
    else if c = "..".toList then
      match acc with
      | [] => none
      | _ :: _ => resolveComps acc.dropLast rest
    else resolveComps (acc ++ [c]) rest

/-- Whether the write target `os.path.join(downloadsDir, filename)` resolves
to a path strictly inside the downloads directory: relative, and after
resolution still of the form `Downloads/<something>`. -/
def insideDownloads (filename : Str) : Bool :=
  if filename.head? = some '/' then false
  else
    match resolveComps [] (splitSlash (ospathJoin downloadsDir filename)) with
    | some (d :: rest) => d == "Downloads".toList && !rest.isEmpty
    | _ => false

/-! ## General lemmas about the embedded operations -/

theorem readChunksF_flatten (fuel : Nat) :
    ∀ (n : Nat), 0 < n → ∀ (content : Bytes), content.length ≤ fuel →
      (readChunksF fuel n content).flatten = content := by
  induction fuel with
  | zero =>
    intro n _ content hf
    have : content = [] := List.eq_nil_of_length_eq_zero (Nat.le_zero.mp hf)
    rw [this]
    rfl
  | succ fuel ih =>
    intro n hn content hf
    rw [readChunksF]
    split
    · rename_i h
      rcases h with h | h
      · omega
      · simp [h]
    · rename_i h
      simp only [not_or] at h
      have hlen : 0 < content.length := List.length_pos.mpr h.2
      have hdrop : (content.drop n).length ≤ fuel := by
        simp only [List.length_drop]
        omega
      simp only [List.flatten_cons, ih n hn (content.drop n) hdrop]
      exact List.take_append_drop n content

theorem readChunks_flatten (n : Nat) (hn : 0 < n) (content : Bytes) :
    (readChunks n content).flatten = content :=
  readChunksF_flatten content.length n hn content (Nat.le_refl _)

theorem foldl_update_fed (chunks : List Bytes) (s : Sha256) :
    (chunks.foldl Sha256.update s).fed = s.fed ++ chunks.flatten := by
  induction chunks generalizing s with
  | nil => simp
  | cons c rest ih => simp [Sha256.update, ih, List.append_assoc]

theorem fsLookup_insert_self (fs : Fs) (p : Str) (v : FsEntry) :
    fsLookup (fsInsert fs p v) p = some v := by
  simp [fsLookup, fsInsert, List.find?]

theorem fsLookup_insert_ne (fs : Fs) (p q : Str) (v : FsEntry) (h : p ≠ q) :
    fsLookup (fsInsert fs q v) p = fsLookup fs p := by
  have hb : (q == p) = false := beq_eq_false_iff_ne.mpr (Ne.symm h)
  simp [fsLookup, fsInsert, List.find?_cons, hb]

theorem fsLookup_remove_self (fs : Fs) (p : Str) :
    fsLookup (fsRemove fs p) p = none := by
  induction fs with
  | nil => rfl
  | cons e rest ih =>
    by_cases h : e.1 = p
    · simpa [fsRemove, h] using ih
    · have hb : (e.1 == p) = false := beq_eq_false_iff_ne.mpr h
      simpa [fsRemove, fsLookup, List.filter_cons, List.find?_cons, hb] using ih

theorem calculateFileHash_file (fs : Fs) (p : Str) (content : Bytes)
    (h : fsLookup fs p = some (.file content)) :
    calculateFileHash fs p = some content := by
  unfold calculateFileHash
  rw [h]
  have h32 : 0 < chunkSize := by decide
  simp [Sha256.hexdigest, foldl_update_fed, Sha256.new,
    readChunks_flatten chunkSize h32 content]

theorem calculateFileHash_none (fs : Fs) (p : Str)
    (h : fsLookup fs p = none) : calculateFileHash fs p = none := by
  unfold calculateFileHash
  rw [h]

theorem calculateFileHash_dir (fs : Fs) (p : Str)
    (h : fsLookup fs p = some .dir) : calculateFileHash fs p = none := by
  unfold calculateFileHash
  rw [h]

theorem clientReceive_flatten (chunks : List Bytes) (h : ∀ c ∈ chunks, c ≠ []) :
    clientReceive chunks = chunks.flatten := by
  induction chunks with
  | nil => rfl
  | cons c rest ih =>
    have hc : c ≠ [] := h c (List.mem_cons_self c rest)
    simp only [clientReceive, if_neg hc, List.flatten_cons]
    rw [ih (fun d hd => h d (List.mem_cons_of_mem c hd))]

theorem head?_ne_slash {f : Str} (h : '/' ∉ f) : f.head? ≠ some '/' := by
  intro hc
  apply h
  cases f with
  | nil => simp at hc
  | cons c rest =>
    simp only [List.head?_cons, Option.some.injEq] at hc
    rw [hc]
    exact List.mem_cons_self '/' rest

theorem ospathJoin_uploads {f : Str} (h : '/' ∉ f) :
    ospathJoin uploadsDir f = "Uploads/".toList ++ f := by
  rw [ospathJoin, if_neg (head?_ne_slash h)]
  norm_num [uploadsDir]
  rfl

theorem ospathJoin_downloads {f : Str} (h : '/' ∉ f) :
    ospathJoin downloadsDir f = "Downloads/".toList ++ f := by
  rw [ospathJoin, if_neg (head?_ne_slash h)]
  norm_num [downloadsDir]
  rfl

theorem uploads_ne_downloads {f : Str} (h : '/' ∉ f) :
    ospathJoin uploadsDir f ≠ ospathJoin downloadsDir f := by
  rw [ospathJoin_uploads h, ospathJoin_downloads h]
  intro he
  have := congrArg List.length he
  simp [List.length_append] at this

theorem jsonLookup_request (filename : Str) :
    jsonLookup (clientRequestFields filename) "request".toList =
      some (.str "download".toList) := rfl

theorem jsonLookup_filename (filename : Str) :
    jsonLookup (clientRequestFields filename) "filename".toList =
      some (.str filename) := rfl

theorem jsonLookup_operation (filename : Str) :
    jsonLookup (clientRequestFields filename) "operation".toList = none := rfl

theorem handleClient_clientRequest (fs : Fs) (filename : Str) :
    handleClient fs (some (clientRequest filename)) =
      match fsLookup fs (ospathJoin uploadsDir filename) with
      | some (.file content) => ⟨readChunks chunkSize content, true⟩
      | some .dir => ⟨[], true⟩
      | none => ⟨[[]], true⟩ := rfl

theorem downloadRun_ok_eq (fs : Fs) (filename : Str) (chunks : List Bytes) :
    downloadRun fs filename chunks .ok =
      if calculateFileHash
           (fsInsert fs (ospathJoin downloadsDir filename) (.file (clientReceive chunks)))
           (ospathJoin downloadsDir filename) =
         calculateFileHash
           (fsInsert fs (ospathJoin downloadsDir filename) (.file (clientReceive chunks)))
           (ospathJoin uploadsDir filename)
      then (.success,
            fsInsert fs (ospathJoin downloadsDir filename) (.file (clientReceive chunks)))
      else (.verificationFailure,
            fsRemove
              (fsInsert fs (ospathJoin downloadsDir filename) (.file (clientReceive chunks)))
              (ospathJoin downloadsDir filename)) := rfl

theorem handleClient_closed (fs : Fs) (data : Option JsonVal) :
    (handleClient fs data).closed = true := by
  unfold handleClient
  (repeat' split) <;> rfl

/-! ## The claims -/

/-- Claim C6: `calculateFileHash` returns the sentinel `None` when the file
cannot be opened, and for a present-but-empty file it returns the digest of
the empty input, which is distinct from the sentinel, so the two situations
are distinguishable from the result alone. -/
theorem c6_hash_sentinel (fs : Fs) (p : Str) :
    (fsLookup fs p = none → calculateFileHash fs p = none) ∧
    (fsLookup fs p = some (.file []) →
      calculateFileHash fs p = some Sha256.new.hexdigest) ∧
    (fsLookup fs p = some (.file []) → calculateFileHash fs p ≠ none) := by
  refine ⟨calculateFileHash_none fs p, ?_, ?_⟩ <;> intro h
  · exact calculateFileHash_file fs p [] h
  · rw [calculateFileHash_file fs p [] h]
    simp

theorem c6_hash_sentinel_witness :
    calculateFileHash [("Uploads/empty.bin".toList, FsEntry.file [])]
        "Uploads/empty.bin".toList = some Sha256.new.hexdigest ∧
    calculateFileHash [] "Uploads/empty.bin".toList = none :=
  ⟨(c6_hash_sentinel [("Uploads/empty.bin".toList, FsEntry.file [])]
      "Uploads/empty.bin".toList).2.1 rfl,
   (c6_hash_sentinel [] "Uploads/empty.bin".toList).1 rfl⟩

/-- Claim C7: the digest the Verifier computes by feeding a file's bytes into
the streaming accumulator in fixed-size chunks equals the digest of the full
content fed in one pass; more generally the accumulator's result depends only
on the concatenation of the chunks fed, not on how the bytes are split. -/
theorem c7_digest_chunk_invariant (content : Bytes) (chunks : List Bytes)
    (h : chunks.flatten = content) :
    (chunks.foldl Sha256.update Sha256.new).hexdigest =
      (Sha256.new.update content).hexdigest ∧
    ((readChunks chunkSize content).foldl Sha256.update Sha256.new).hexdigest =
      (Sha256.new.update content).hexdigest ∧
    (∀ fs p, fsLookup fs p = some (.file content) →
      calculateFileHash fs p = some ((Sha256.new.update content).hexdigest)) := by
  have h32 : 0 < chunkSize := by decide
  refine ⟨?_, ?_, ?_⟩
  · simp [Sha256.hexdigest, foldl_update_fed, Sha256.new, Sha256.update, h]
  · simp [Sha256.hexdigest, foldl_update_fed, Sha256.new, Sha256.update,
      readChunks_flatten chunkSize h32 content]
  · intro fs p hf
    rw [calculateFileHash_file fs p content hf]
    simp [Sha256.hexdigest, Sha256.update, Sha256.new]

theorem c7_digest_chunk_invariant_witness :
    ([[1, 2], [3]].foldl Sha256.update Sha256.new).hexdigest =
      (Sha256.new.update [1, 2, 3]).hexdigest ∧
    calculateFileHash [("Uploads/a.bin".toList, FsEntry.file [1, 2, 3])]
        "Uploads/a.bin".toList = some ((Sha256.new.update [1, 2, 3]).hexdigest) :=
  ⟨(c7_digest_chunk_invariant [1, 2, 3] [[1, 2], [3]] rfl).1,
   (c7_digest_chunk_invariant [1, 2, 3] [[1, 2], [3]] rfl).2.2
     [("Uploads/a.bin".toList, FsEntry.file [1, 2, 3])] "Uploads/a.bin".toList rfl⟩

/-- Claim C5: if the initial payload fails to parse or its operation field is
not the recognized `"download"` value, the handler sends nothing; and in every
case the handler closes the connection and returns normally (the bare `except`
keeps any error away from the accept loop). -/
theorem c5_fail_closed (fs : Fs) (data : Option JsonVal) :
    (handleClient fs data).closed = true ∧
    (requestRecognized data = false → (handleClient fs data).sent = []) := by
  constructor
  · unfold handleClient
    (repeat' split) <;> rfl
  · intro h
    unfold requestRecognized at h
    unfold handleClient
    (repeat' split) <;> try rfl
    all_goals simp_all

theorem c5_fail_closed_witness :
    (handleClient [] none).closed = true ∧ (handleClient [] none).sent = [] :=
  ⟨(c5_fail_closed [] none).1, (c5_fail_closed [] none).2 rfl⟩

/-- Claim C8: the handler streams a file's content bytes exactly when the path
resolved against the served directory is a regular file; a directory at that
path yields no bytes at all (`open` raises before any send), and a missing
path yields the single empty send. -/
theorem c8_stream_only_regular (fs : Fs) (filename : Str) :
    (∀ content, fsLookup fs (ospathJoin uploadsDir filename) = some (.file content) →
      (handleClient fs (some (clientRequest filename))).sent = readChunks chunkSize content) ∧
    (fsLookup fs (ospathJoin uploadsDir filename) = some .dir →
      (handleClient fs (some (clientRequest filename))).sent = []) ∧
    (fsLookup fs (ospathJoin uploadsDir filename) = none →
      (handleClient fs (some (clientRequest filename))).sent = [[]]) := by
  refine ⟨?_, ?_, ?_⟩
  · intro content h
    rw [handleClient_clientRequest, h]
  · intro h
    rw [handleClient_clientRequest, h]
  · intro h
    rw [handleClient_clientRequest, h]

theorem c8_stream_only_regular_witness :
    (handleClient [("Uploads/sub".toList, FsEntry.dir)]
        (some (clientRequest "sub".toList))).sent = [] :=
  (c8_stream_only_regular [("Uploads/sub".toList, FsEntry.dir)] "sub".toList).2.1 rfl

/-- Claim C1: downloading a file present in the served directory from a
correctly running handler yields: the handler's sent chunks concatenate to the
file's bytes, the client writes exactly the received bytes, and the digest
comparison reports success with the local copy kept byte-identical.  The
statement is for arbitrary content, so it covers sizes that are not a multiple
of the chunk size, exactly one chunk, and zero bytes. -/
theorem c1_round_trip (fs : Fs) (filename : Str) (content : Bytes)
    (chunks : List Bytes) (hns : '/' ∉ filename)
    (hfile : fsLookup fs (ospathJoin uploadsDir filename) = some (.file content))
    (hframe : validFraming chunks
      (handleClient fs (some (clientRequest filename))).sent.flatten) :
    (handleClient fs (some (clientRequest filename))).sent.flatten = content ∧
    clientReceive chunks = content ∧
    (downloadRun fs filename chunks .ok).1 = .success ∧
    fsLookup (downloadRun fs filename chunks .ok).2
      (ospathJoin downloadsDir filename) = some (.file content) := by
  have hsent : (handleClient fs (some (clientRequest filename))).sent =
      readChunks chunkSize content := by
    rw [handleClient_clientRequest, hfile]
  have hflat : (handleClient fs (some (clientRequest filename))).sent.flatten = content := by
    rw [hsent]
    exact readChunks_flatten chunkSize (by decide) content
  have hrecv : clientReceive chunks = content := by
    rcases hframe with ⟨hf, hne⟩
    rw [clientReceive_flatten chunks (fun c hc => (hne c hc).1), hf, hflat]
  have hd : calculateFileHash
      (fsInsert fs (ospathJoin downloadsDir filename) (.file content))
      (ospathJoin downloadsDir filename) = some content :=
    calculateFileHash_file _ _ _ (fsLookup_insert_self fs _ _)
  have ho : calculateFileHash
      (fsInsert fs (ospathJoin downloadsDir filename) (.file content))
      (ospathJoin uploadsDir filename) = some content := by
    apply calculateFileHash_file
    rw [fsLookup_insert_ne fs _ _ _ (uploads_ne_downloads hns)]
    exact hfile
  refine ⟨hflat, hrecv, ?_, ?_⟩
  · rw [downloadRun_ok_eq, hrecv, hd, ho, if_pos rfl]
  · rw [downloadRun_ok_eq, hrecv, hd, ho, if_pos rfl]
    exact fsLookup_insert_self fs _ _

theorem c1_round_trip_witness :
    ('/' ∉ "a.txt".toList) ∧
    (downloadRun [("Uploads/a.txt".toList, FsEntry.file [1, 2, 3])]
      "a.txt".toList [[1, 2, 3]] .ok).1 = Outcome.success :=
  ⟨by decide,
   (c1_round_trip [("Uploads/a.txt".toList, FsEntry.file [1, 2, 3])]
     "a.txt".toList [1, 2, 3] [[1, 2, 3]] (by decide) (by decide)
     ⟨by decide, by decide⟩).2.2.1⟩

/-- Claim C2 as amended: for a filename not present in the served directory
the client receives zero bytes, but the code has no not-found outcome: the
empty local copy's digest is compared against the unavailable reference digest
(`None`), the mismatch is reported as a verification failure, and the empty
file is deleted. -/
theorem c2_not_found (fs : Fs) (filename : Str) (chunks : List Bytes)
    (hns : '/' ∉ filename)
    (hmiss : fsLookup fs (ospathJoin uploadsDir filename) = none)
    (hframe : validFraming chunks
      (handleClient fs (some (clientRequest filename))).sent.flatten) :
    (handleClient fs (some (clientRequest filename))).sent.flatten = [] ∧
    clientReceive chunks = [] ∧
    (downloadRun fs filename chunks .ok).1 = .verificationFailure ∧
    fsLookup (downloadRun fs filename chunks .ok).2
      (ospathJoin downloadsDir filename) = none := by
  have hsent : (handleClient fs (some (clientRequest filename))).sent = [[]] := by
    rw [handleClient_clientRequest, hmiss]
  have hflat : (handleClient fs (some (clientRequest filename))).sent.flatten = [] := by
    rw [hsent]
    rfl
  have hchunks : chunks = [] := by
    rcases hframe with ⟨hf, hne⟩
    rw [hflat] at hf
    cases chunks with
    | nil => rfl
    | cons c rest =>
      rw [List.flatten_eq_nil_iff] at hf
      exact absurd (hf c (List.mem_cons_self c rest))
        (hne c (List.mem_cons_self c rest)).1
  have hrecv : clientReceive chunks = [] := by
    rw [hchunks]
    rfl
  have hd : calculateFileHash
      (fsInsert fs (ospathJoin downloadsDir filename) (.file []))
      (ospathJoin downloadsDir filename) = some [] :=
    calculateFileHash_file _ _ _ (fsLookup_insert_self fs _ _)
  have ho : calculateFileHash
      (fsInsert fs (ospathJoin downloadsDir filename) (.file []))
      (ospathJoin uploadsDir filename) = none := by
    apply calculateFileHash_none
    rw [fsLookup_insert_ne fs _ _ _ (uploads_ne_downloads hns)]
    exact hmiss
  have hneq : calculateFileHash
      (fsInsert fs (ospathJoin downloadsDir filename) (.file []))
      (ospathJoin downloadsDir filename) ≠ calculateFileHash
      (fsInsert fs (ospathJoin downloadsDir filename) (.file []))
      (ospathJoin uploadsDir filename) := by
    rw [hd, ho]
    simp
  refine ⟨hflat, hrecv, ?_, ?_⟩
  · rw [downloadRun_ok_eq, hrecv, if_neg hneq]
  · rw [downloadRun_ok_eq, hrecv, if_neg hneq]
    exact fsLookup_remove_self _ _

theorem c2_not_found_witness :
    ('/' ∉ "missing.txt".toList) ∧
    (downloadRun [] "missing.txt".toList [] .ok).1 = Outcome.verificationFailure :=
  ⟨by decide,
   (c2_not_found [] "missing.txt".toList [] (by decide) rfl
     ⟨by decide, by decide⟩).2.2.1⟩

/-- Claim C2 as frozen is false on the code: requesting `missing.txt` from a
handler whose served directory is empty does receive zero bytes, but the
client reports a verification failure (and deletes the empty file), not a
not-found outcome. -/
theorem c2_counterexample :
    (handleClient [] (some (clientRequest "missing.txt".toList))).sent.flatten = [] ∧
    (downloadRun [] "missing.txt".toList [] .ok).1 = Outcome.verificationFailure ∧
    fsLookup (downloadRun [] "missing.txt".toList [] .ok).2
      (ospathJoin downloadsDir "missing.txt".toList) = none := by
  refine ⟨rfl, ?_, ?_⟩ <;> decide

/-- Claim C4: the newly written local file is deleted exactly when the failure
is a digest mismatch; on equality the file is kept and success reported; on an
I/O or network exception at connect, send, or during the receive loop the
error is reported and nothing (including a partially written file) is
deleted. -/
theorem c4_delete_iff_mismatch (fs : Fs) (filename : Str) (chunks : List Bytes)
    (fp : FailPoint) :
    ((downloadRun fs filename chunks fp).1 = .verificationFailure ↔
      fp = .ok ∧
      calculateFileHash
        (fsInsert fs (ospathJoin downloadsDir filename) (.file (clientReceive chunks)))
        (ospathJoin downloadsDir filename) ≠
      calculateFileHash
        (fsInsert fs (ospathJoin downloadsDir filename) (.file (clientReceive chunks)))
        (ospathJoin uploadsDir filename)) ∧
    ((downloadRun fs filename chunks fp).1 = .verificationFailure →
      fsLookup (downloadRun fs filename chunks fp).2
        (ospathJoin downloadsDir filename) = none) ∧
    ((downloadRun fs filename chunks fp).1 = .success →
      fsLookup (downloadRun fs filename chunks fp).2
        (ospathJoin downloadsDir filename) = some (.file (clientReceive chunks))) ∧
    (∀ part, fp = .recvFail part →
      (downloadRun fs filename chunks fp).1 = .errorReported ∧
      fsLookup (downloadRun fs filename chunks fp).2
        (ospathJoin downloadsDir filename) = some (.file part)) ∧
    ((fp = .connectFail ∨ fp = .sendFail) →
      (downloadRun fs filename chunks fp).1 = .errorReported ∧
      (downloadRun fs filename chunks fp).2 = fs) := by
  cases fp with
  | connectFail => simp [downloadRun]
  | sendFail => simp [downloadRun]
  | recvFail part =>
    refine ⟨by simp [downloadRun], by simp [downloadRun], by simp [downloadRun], ?_, by simp⟩
    intro q hq
    obtain rfl : part = q := by injection hq
    exact ⟨rfl, fsLookup_insert_self fs _ _⟩
  | ok =>
    rw [downloadRun_ok_eq]
    by_cases hc : calculateFileHash
        (fsInsert fs (ospathJoin downloadsDir filename) (.file (clientReceive chunks)))
        (ospathJoin downloadsDir filename) = calculateFileHash
        (fsInsert fs (ospathJoin downloadsDir filename) (.file (clientReceive chunks)))
        (ospathJoin uploadsDir filename)
    · rw [if_pos hc]
      refine ⟨by simp [hc], by simp, ?_, by simp, by simp⟩
      intro _
      exact fsLookup_insert_self fs _ _
    · rw [if_neg hc]
      refine ⟨by simp [hc], ?_, by simp, by simp, by simp⟩
      intro _
      exact fsLookup_remove_self _ _

theorem c4_delete_iff_mismatch_witness :
    (downloadRun [] "f.bin".toList [] (.recvFail [9])).1 = Outcome.errorReported ∧
    fsLookup (downloadRun [] "f.bin".toList [] (.recvFail [9])).2
      (ospathJoin downloadsDir "f.bin".toList) = some (FsEntry.file [9]) :=
  (c4_delete_iff_mismatch [] "f.bin".toList [] (.recvFail [9])).2.2.2.1 [9] rfl

/-- Claim C3 as frozen is false on the code: the request message carries no
field named `operation` — sending an object with an `operation` field to a
handler whose served directory does contain the requested file makes the
handler stream nothing (the missing `request` key raises `KeyError`), and the
message the Fetch Client actually sends has no `operation` field. -/
theorem c3_counterexample :
    (handleClient [("Uploads/a.txt".toList, FsEntry.file [1, 2, 3])]
      (some (.obj [("operation".toList, .str "download".toList),
                   ("filename".toList, .str "a.txt".toList)]))).sent = [] ∧
    jsonLookup (clientRequestFields "a.txt".toList) "operation".toList = none :=
  ⟨rfl, rfl⟩

/-- Claim C3 as amended: the single request message is a text-encoded object
whose operation field is named `request` (not `operation`) with the literal
value `"download"`, together with a string `filename` field; the handler
parses exactly those fields and streams the file on a match. -/
theorem c3_request_format (fs : Fs) (filename : Str) :
    jsonLookup (clientRequestFields filename) "request".toList =
      some (.str "download".toList) ∧
    jsonLookup (clientRequestFields filename) "filename".toList =
      some (.str filename) ∧
    jsonLookup (clientRequestFields filename) "operation".toList = none ∧
    requestRecognized (some (clientRequest filename)) = true ∧
    (∀ content, fsLookup fs (ospathJoin uploadsDir filename) = some (.file content) →
      (handleClient fs (some (clientRequest filename))).sent =
        readChunks chunkSize content) := by
  refine ⟨jsonLookup_request filename, jsonLookup_filename filename,
    jsonLookup_operation filename, rfl, ?_⟩
  intro content h
  rw [handleClient_clientRequest, h]

theorem c3_request_format_witness :
    (handleClient [("Uploads/a.txt".toList, FsEntry.file [1, 2])]
      (some (clientRequest "a.txt".toList))).sent =
        readChunks chunkSize [1, 2] :=
  (c3_request_format [("Uploads/a.txt".toList, FsEntry.file [1, 2])]
    "a.txt".toList).2.2.2.2 [1, 2] rfl

/-- Claim C9 as frozen is false on the code: the client-side path join is
indeed verbatim and unguarded, but a filename containing a path separator
does not necessarily resolve outside the downloads directory — `x/y` is
written to `Downloads/x/y`, which resolves inside it. -/
theorem c9_counterexample :
    ('/' ∈ "x/y".toList) ∧
    fsLookup ((downloadRun [] "x/y".toList [] (.recvFail [7])).2)
      (ospathJoin downloadsDir "x/y".toList) = some (FsEntry.file [7]) ∧
    insideDownloads "x/y".toList = true := by
  refine ⟨by decide, rfl, by decide⟩

/-- Claim C9 as amended: the Fetch Client writes the received stream to the
unvalidated verbatim join of the downloads directory with the user-supplied
filename — for every filename, including ones with separators or parent
references — and there exist filenames (leading parent references, absolute
paths) whose write target resolves outside the downloads directory, while
others containing a separator (such as `x/y`) resolve inside it. -/
theorem c9_unguarded_join (fs : Fs) (filename : Str) (part : Bytes) :
    fsLookup ((downloadRun fs filename [] (.recvFail part)).2)
      (ospathJoin downloadsDir filename) = some (.file part) ∧
    insideDownloads "../x".toList = false ∧
    insideDownloads "/etc/x".toList = false ∧
    insideDownloads "x/y".toList = true := by
  refine ⟨fsLookup_insert_self fs _ _, by decide, by decide, by decide⟩

/-- Claim C10 as frozen is false on the code: `loadAddressBook` returns the
parsed JSON value whatever it is — an address-book file holding the valid
JSON text `[]` makes it return a list, not a dictionary, so callers do not
always receive a dictionary. -/
theorem c10_counterexample :
    (loadAddressBook (.content (.arr []))).isObj = false := rfl

/-- Claim C10 as amended: `loadAddressBook` is total and returns the empty
mapping when the file is absent, unreadable, or malformed JSON, and otherwise
returns the parsed JSON value unconditionally; the result is a dictionary
exactly when every parsed content the file could hold is a JSON object (the
fallback `{}` itself is one). -/
theorem c10_load_total (st : AbFileState) :
    (st = .absent → loadAddressBook st = .obj []) ∧
    (st = .unreadable → loadAddressBook st = .obj []) ∧
    (st = .malformedJson → loadAddressBook st = .obj []) ∧
    (∀ v, st = .content v → loadAddressBook st = v) ∧
    ((loadAddressBook st).isObj = true ↔
      ∀ v, st = .content v → v.isObj = true) := by
  cases st with
  | content v =>
    refine ⟨?_, ?_, ?_, ?_, ?_, ?_⟩
    · intro h
      exact nomatch h
    · intro h
      exact nomatch h
    · intro h
      exact nomatch h
    · intro w hw
      cases hw
      rfl
    · intro h w hw
      cases hw
      exact h
    · intro h
      exact h v rfl
  | absent =>
    refine ⟨fun _ => rfl, fun _ => rfl, fun _ => rfl, ?_, ?_, fun _ => rfl⟩
    · intro v h
      exact nomatch h
    · intro _ v h
      exact nomatch h
  | unreadable =>
    refine ⟨fun _ => rfl, fun _ => rfl, fun _ => rfl, ?_, ?_, fun _ => rfl⟩
    · intro v h
      exact nomatch h
    · intro _ v h
      exact nomatch h
  | malformedJson =>
    refine ⟨fun _ => rfl, fun _ => rfl, fun _ => rfl, ?_, ?_, fun _ => rfl⟩
    · intro v h
      exact nomatch h
    · intro _ v h
      exact nomatch h

theorem c10_load_total_witness :
    loadAddressBook AbFileState.malformedJson = JsonVal.obj [] ∧
    loadAddressBook (AbFileState.content (.arr [])) = JsonVal.arr [] :=
  ⟨(c10_load_total AbFileState.malformedJson).2.2.1 rfl,
   (c10_load_total (AbFileState.content (.arr []))).2.2.2.1 (.arr []) rfl⟩

end D2Download
